import Mathlib

/-!
Shallow embedding of the scan-to-reward ledger engine and the Airtable
reconciliation engine of the repository (src/QrScannerCamera.tsx,
src/lib.ts), together with proofs about the claims of the specification.

Numeric record fields are modelled as `Int` (JavaScript numbers used as
integers); timestamps are ISO strings, with `Option String` for nullable
timestamp columns (`reward_earned_at`, `last_scan_at`); JavaScript
falsiness of `null`/`undefined` maps to `Option.none`.
-/

namespace RewardsApp

/-- A record of the `members` collection (fields as read/written by
`processQrScan` in src/QrScannerCamera.tsx). -/
structure Member where
  id : Nat
  qr_code : String
  name : String
  member_type_id : Nat
  points : Int
  total_scans : Int
  points_to_reward : Int
  reward_due : Bool
  reward_earned_at : Option String
  last_scan_at : Option String
deriving Repr, DecidableEq

/-- A record of the `member_types` collection. -/
structure MemberType where
  id : Nat
  name : String
  scans_required : Int
  reward_type_id : Nat
  total_scans : Int
deriving Repr, DecidableEq

/-- A record of the append-only `scan_logs` collection. -/
structure ScanLog where
  scanned_value : String
deriving Repr, DecidableEq

/-- A record of the append-only `redeem_logs` collection. -/
structure RedeemLog where
  member_id : Nat
  reward_type_id : Nat
deriving Repr, DecidableEq

/-- The portion of the record store touched by the scan ledger engine. -/
structure Store where
  members : List Member
  member_types : List MemberType
  scan_logs : List ScanLog
  redeem_logs : List RedeemLog
deriving Repr, DecidableEq

/-- Insertion step for sorting members by ascending `id`
(the `sort: { field: 'id', order: 'ASC' }` of the getList request). -/
def insertById (m : Member) : List Member → List Member
  | [] => [m]
  | x :: xs => if m.id ≤ x.id then m :: x :: xs else x :: insertById m xs

/-- Sort a member list by ascending `id`. -/
def sortById : List Member → List Member
  | [] => []
  | x :: xs => insertById x (sortById xs)

/-- The getList call of step 1 of `processQrScan`: members whose `qr_code`
equals the scanned code, sorted by id ascending, limited to
`perPage: 1`; the code then takes `members[0]`, hence `head?`. -/
def lookupMember (s : Store) (code : String) : Option Member :=
  (sortById (s.members.filter (fun m => m.qr_code == code))).head?

/-- The getOne call of step 2 of `processQrScan`: the member type whose
`id` equals the member's `member_type_id` (`none` models both a REST
not-found rejection and the falsy-data check in the source). -/
def getOneMemberType (s : Store) (i : Nat) : Option MemberType :=
  s.member_types.find? (fun t => t.id == i)

/-- Step 3 + 4 of `processQrScan`: the member-update payload
`memberUpdateData` (src/QrScannerCamera.tsx lines 103-117). -/
def memberUpdateData (member : Member) (memberType : MemberType) (now : String) : Member :=
  let newMemberPoints := member.points + 1
  let newPointsToReward := memberType.scans_required - newMemberPoints
  let rewardDue := newPointsToReward ≤ 0
  { member with
    total_scans := member.total_scans + 1
    points := if rewardDue then 0 else newMemberPoints
    points_to_reward := newPointsToReward
    reward_due := decide rewardDue
    reward_earned_at :=
      if rewardDue ∧ member.reward_earned_at = none then some now
      else member.reward_earned_at
    last_scan_at := some now }

/-- The member-type update payload of step 5(b): spread of the
previously-read record with `total_scans` incremented. -/
def memberTypeUpdateData (memberType : MemberType) : MemberType :=
  { memberType with total_scans := memberType.total_scans + 1 }

/-- One store write issued by `processQrScan`, in the shape the data
provider receives it (id, previous snapshot, new data for updates). -/
inductive WriteOp where
  | updateMember (id : Nat) (previousData : Member) (data : Member)
  | updateMemberType (id : Nat) (previousData : MemberType) (data : MemberType)
  | createScanLog (data : ScanLog)
  | createRedeemLog (data : RedeemLog)
deriving Repr, DecidableEq

/-- The collection a write targets, used to state ordering claims. -/
inductive WriteKind where
  | member
  | memberType
  | scanLog
  | redeemLog
deriving Repr, DecidableEq

/-- The collection targeted by a write. -/
def WriteOp.kind : WriteOp → WriteKind
  | .updateMember _ _ _ => .member
  | .updateMemberType _ _ _ => .memberType
  | .createScanLog _ => .scanLog
  | .createRedeemLog _ => .redeemLog

/-- Apply one write to the store: updates replace the record with the
matching id, creates append to the log collection. -/
def applyOp (s : Store) : WriteOp → Store
  | .updateMember i _ data =>
      { s with members := s.members.map (fun m => if m.id == i then data else m) }
  | .updateMemberType i _ data =>
      { s with member_types := s.member_types.map (fun t => if t.id == i then data else t) }
  | .createScanLog data => { s with scan_logs := s.scan_logs ++ [data] }
  | .createRedeemLog data => { s with redeem_logs := s.redeem_logs ++ [data] }

/-- Pre-mutation failures of `processQrScan` (steps 1-2). -/
inductive ScanError where
  | memberNotFound
  | memberTypeNotFound
deriving Repr, DecidableEq

/-- The data returned for the dialog on a successful scan. -/
structure DialogContentData where
  memberType : String
  memberName : String
  points : Int
  scansRequiredForReward : Int
deriving Repr, DecidableEq

/-- The writes steps 5-7 of `processQrScan` issue, in source order:
member update, member-type update, scan log, and — only when
`rewardDue` — redeem log (src/QrScannerCamera.tsx lines 120-148). -/
def scanOps (member : Member) (memberType : MemberType) (code : String) (now : String) :
    List WriteOp :=
  let rewardDue := memberType.scans_required - (member.points + 1) ≤ 0
  [ .updateMember member.id member (memberUpdateData member memberType now),
    .updateMemberType memberType.id memberType (memberTypeUpdateData memberType),
    .createScanLog { scanned_value := code } ]
  ++ (if rewardDue then
        [ .createRedeemLog
            { member_id := member.id, reward_type_id := memberType.reward_type_id } ]
      else [])

/-- The dialog data a successful `processQrScan` returns
(src/QrScannerCamera.tsx lines 151-156). -/
def scanDialog (member : Member) (memberType : MemberType) : DialogContentData :=
  let newMemberPoints := member.points + 1
  let rewardDue := memberType.scans_required - newMemberPoints ≤ 0
  { memberType := memberType.name
    memberName := member.name
    points := if rewardDue then 0 else newMemberPoints
    scansRequiredForReward := memberType.scans_required }

/-- Steps 1-4 of `processQrScan` plus the list of writes steps 5-7 will
issue. No store mutation happens here; an error means the function
returned `null` (with a notification) before any write. -/
def processQrScanPlan (s : Store) (code : String) (now : String) :
    Except ScanError (List WriteOp × DialogContentData) :=
  match lookupMember s code with
  | none => .error .memberNotFound
  | some member =>
    match getOneMemberType s member.member_type_id with
    | none => .error .memberTypeNotFound
    | some memberType =>
      .ok (scanOps member memberType code now, scanDialog member memberType)

/-- `processQrScan` when every store write succeeds: returns the final
store and the dialog data (`none` models the `null` return). -/
def processQrScan (s : Store) (code : String) (now : String) :
    Store × Option DialogContentData :=
  match processQrScanPlan s code now with
  | .error _ => (s, none)
  | .ok (ops, d) => (ops.foldl applyOp s, some d)

/-- The notification the UI shows for each outcome (`notify` calls in
the source; write failures land in the catch block, whose message does
not depend on which writes had already succeeded). -/
def catchMessage : String :=
  "Error processing QR scan, account may have just been scanned."

/-- `processQrScan` when the store rejects the write number `k`
(0-based) of the commit sequence: the first `k` writes remain applied
(the source has no rollback code), the remaining writes are never
issued, the function returns `null` from the catch block, and the user
sees the fixed `catchMessage`. When `k` is at least the number of
planned writes, every write succeeds. -/
def processQrScanFailingAt (s : Store) (code : String) (now : String) (k : Nat) :
    Store × Option DialogContentData × String :=
  match processQrScanPlan s code now with
  | .error .memberNotFound => (s, none, "No member found with this QR code")
  | .error .memberTypeNotFound => (s, none, "No Member Type found for this member")
  | .ok (ops, d) =>
      if k < ops.length then
        ((ops.take k).foldl applyOp s, none, catchMessage)
      else
        (ops.foldl applyOp s, some d, "Visit logged successfully")

/-!
Interleaving model for two concurrent `processQrScan` invocations on
the same code. Every store operation in the source is an awaited call,
so a concurrent invocation can interleave at each of them; the unit of
atomicity is a single store operation. A call first performs its reads
and computes its plan (steps 1-4 touch the store only by reading), then
issues its writes one at a time.
-/

/-- The progress of one in-flight `processQrScan` call. -/
inductive CallPhase where
  | ready
  | writing (ops : List WriteOp)
  | failed
  | finished
deriving Repr, DecidableEq

/-- One atomic step of an in-flight call against the current store:
from `ready` it performs the reads and fixes its write list from the
store as it is now; from `writing` it issues the next write. -/
def stepCall (code : String) (now : String) (s : Store) :
    CallPhase → Store × CallPhase
  | .ready =>
      match processQrScanPlan s code now with
      | .error _ => (s, .failed)
      | .ok (ops, _) => (s, .writing ops)
  | .writing [] => (s, .finished)
  | .writing (op :: rest) => (applyOp s op, .writing rest)
  | .failed => (s, .failed)
  | .finished => (s, .finished)

/-- Joint state of the store and two in-flight calls. -/
structure TwoCalls where
  store : Store
  a : CallPhase
  b : CallPhase
deriving Repr, DecidableEq

/-- Run two concurrent calls under a schedule: `true` steps call `a`,
`false` steps call `b`. -/
def runSchedule (code : String) (nowA nowB : String) :
    List Bool → TwoCalls → TwoCalls
  | [], st => st
  | pick :: rest, st =>
      if pick then
        let (s, p) := stepCall code nowA st.store st.a
        runSchedule code nowA nowB rest { st with store := s, a := p }
      else
        let (s, p) := stepCall code nowB st.store st.b
        runSchedule code nowA nowB rest { st with store := s, b := p }

end RewardsApp

namespace AirtableSync

/-- JavaScript's `String.prototype.toLowerCase()`: character-wise
lowering. Defined over the character list (extensionally
`String.toLower`) so that concrete instances compute in the kernel. -/
def toLowerCase (s : String) : String := ⟨s.data.map Char.toLower⟩

/-- A record of the `pending_members` collection, in the shape
`airtableFetch` (src/lib.ts) creates it. -/
structure PendingMember where
  airtable_id : String
  name : String
  email : String
  membership_type : String
  qr_code_url : String
  created_at : String
  status : String
  source : String
deriving Repr, DecidableEq

/-- One record of the Airtable response (`AirtableResponse.records`,
src/types.ts), fields flattened. -/
structure AirtableRecord where
  id : String
  name : String
  email : String
  membershipType : String
  qrCode : String
  created : String
deriving Repr, DecidableEq

/-- The mapping of an Airtable record to a candidate pending member
(src/lib.ts lines 78-87). -/
def toPendingMember (record : AirtableRecord) : PendingMember :=
  { airtable_id := record.id
    name := record.name
    email := record.email
    membership_type := record.membershipType
    qr_code_url := record.qrCode
    created_at := record.created
    status := "pending"
    source := "Airtable" }

/-- The duplicate filter of `airtableFetch` (src/lib.ts lines 98-106):
lookup sets are built from the EXISTING pending members only — external
id exactly, email lower-cased — and a candidate is kept iff neither of
its keys is in those sets. `List.contains` models `Set.has`. -/
def newMembers (existing : List PendingMember) (records : List AirtableRecord) :
    List PendingMember :=
  let members := records.map toPendingMember
  let existingAirtableIds := existing.map (fun member => member.airtable_id)
  let existingEmails := existing.map (fun member => toLowerCase member.email)
  members.filter (fun member =>
    !existingAirtableIds.contains member.airtable_id &&
    !existingEmails.contains (toLowerCase member.email))

/-- The existing-members getList of `airtableFetch` (src/lib.ts lines
90-94): a SINGLE page, `page: 1, perPage: 1000`, sorted by ascending
id. The store list is kept in ascending-id (creation) order — the REST
backend assigns monotonically increasing ids and creates append — so
the fetched page is the first 1000 records of the store, and records
beyond the 1000th are never seen by the duplicate filter. -/
def fetchExisting (store : List PendingMember) : List PendingMember :=
  store.take 1000

/-- One successful run of the sync: duplicates are filtered against the
single fetched page of existing members (not against the whole store),
and every filtered candidate is created, appending to the store. -/
def runSync (store : List PendingMember) (records : List AirtableRecord) :
    List PendingMember :=
  store ++ newMembers (fetchExisting store) records

/-- The uniqueness invariant of the spec's data model: no two pending
members share an `airtable_id`, and no two share a case-insensitive
email. -/
def pendingInvariant (l : List PendingMember) : Prop :=
  l.Pairwise (fun a b => a.airtable_id ≠ b.airtable_id ∧ toLowerCase a.email ≠ toLowerCase b.email)

instance : DecidablePred pendingInvariant := fun l =>
  List.instDecidablePairwise l

end AirtableSync

namespace RewardsApp

/-! Concrete fixtures used for witnesses and counterexamples. -/

/-- A member two points short of nothing: 2 of 3 required scans done,
no reward earned yet. -/
def exMember : Member :=
  { id := 1, qr_code := "X", name := "Alice", member_type_id := 5, points := 2,
    total_scans := 10, points_to_reward := 1, reward_due := false,
    reward_earned_at := none, last_scan_at := none }

/-- The member type of `exMember`: reward every 3 scans. -/
def exMemberType : MemberType :=
  { id := 5, name := "Gold", scans_required := 3, reward_type_id := 7, total_scans := 100 }

/-- A store holding just `exMember` and `exMemberType`. -/
def exStore : Store :=
  { members := [exMember], member_types := [exMemberType], scan_logs := [], redeem_logs := [] }

/-- A second member with the same `qr_code` as `exMember`. -/
def exMemberDup : Member := { exMember with id := 2, name := "Bob" }

/-- A store in which two members share the qr code "X". -/
def exStoreDup : Store := { exStore with members := [exMember, exMemberDup] }

/-- A schedule of two concurrent calls in which both perform their
reads before either issues a write, then each runs to completion. -/
def exSchedule : List Bool :=
  [true, false, true, true, true, true, true, false, false, false, false, false]

end RewardsApp

namespace AirtableSync

/-- An existing pending member with a lower-case email. -/
def exExisting : PendingMember :=
  toPendingMember
    { id := "rec0", name := "Carol", email := "a@x.com", membershipType := "Gold",
      qrCode := "https://q/0", created := "2024-01-01" }

/-- An external candidate whose email differs from `exExisting`'s only
in case. -/
def exCandidateUpper : AirtableRecord :=
  { id := "rec1", name := "Dave", email := "A@x.com", membershipType := "Gold",
    qrCode := "https://q/1", created := "2024-01-02" }

/-- A second candidate with the same email up to case as
`exCandidateUpper` but a different external id. -/
def exCandidateSameEmail : AirtableRecord :=
  { id := "rec2", name := "Erin", email := "a@X.com", membershipType := "Gold",
    qrCode := "https://q/2", created := "2024-01-03" }

/-- The i-th filler pending member: its external id is `i + 1` copies
of 'a' and its email `i + 1` copies of 'e', so all keys are pairwise
distinct (distinct lengths) and distinct from `bigCand`'s. -/
def fillerPending (i : Nat) : PendingMember :=
  { airtable_id := String.mk (List.replicate (i + 1) 'a')
    name := "F"
    email := String.mk (List.replicate (i + 1) 'e')
    membership_type := "Gold"
    qr_code_url := "https://q/f"
    created_at := "2024-01-01"
    status := "pending"
    source := "Airtable" }

/-- A store already holding exactly one full page (1000 records) of
pending members. -/
def bigStore : List PendingMember := (List.range 1000).map fillerPending

/-- A genuinely new candidate: its keys (1001 copies of 'a' / of 'e')
differ from every `bigStore` record's. -/
def bigCand : AirtableRecord :=
  { id := String.mk (List.replicate 1001 'a'), name := "New",
    email := String.mk (List.replicate 1001 'e'), membershipType := "Gold",
    qrCode := "https://q/n", created := "2024-01-04" }

end AirtableSync

namespace RewardsApp

/-! Helper lemmas about the scan ledger engine. -/

/-- When both lookups succeed the plan is the write list and dialog
built from the member and member type that were read. -/
theorem processQrScanPlan_ok {s : Store} {code now : String} {m : Member} {t : MemberType}
    (hm : lookupMember s code = some m)
    (ht : getOneMemberType s m.member_type_id = some t) :
    processQrScanPlan s code now = .ok (scanOps m t code now, scanDialog m t) := by
  simp only [processQrScanPlan, hm, ht]

/-- Effect of the full write sequence on each collection. -/
theorem scanOps_foldl (s : Store) (m : Member) (t : MemberType) (code now : String) :
    (scanOps m t code now).foldl applyOp s =
      { members := s.members.map (fun x => if x.id == m.id then memberUpdateData m t now else x)
        member_types :=
          s.member_types.map (fun x => if x.id == t.id then memberTypeUpdateData t else x)
        scan_logs := s.scan_logs ++ [{ scanned_value := code }]
        redeem_logs := s.redeem_logs ++
          (if t.scans_required - (m.points + 1) ≤ 0 then
            [{ member_id := m.id, reward_type_id := t.reward_type_id }] else []) } := by
  by_cases h : t.scans_required - (m.points + 1) ≤ 0 <;>
    simp [scanOps, h, applyOp, List.foldl]

/-- A scan whose two reads succeed runs all writes and returns dialog
data. -/
theorem processQrScan_ok {s : Store} {code now : String} {m : Member} {t : MemberType}
    (hm : lookupMember s code = some m)
    (ht : getOneMemberType s m.member_type_id = some t) :
    processQrScan s code now =
      ((scanOps m t code now).foldl applyOp s, some (scanDialog m t)) := by
  unfold processQrScan
  rw [processQrScanPlan_ok hm ht]

/-- C1: a successful ProcessScan on member `m` of type `t` stores a
member with `totalScans = m.totalScans + 1`,
`pointsToReward = t.scansRequired - (m.points + 1)`,
`rewardDue = (m.points + 1 ≥ t.scansRequired)`, and `points = 0` when
the reward is due, else `m.points + 1`; when
`m.points + 1 ≥ t.scansRequired` the stored points is 0, `rewardDue` is
true and `pointsToReward ≤ 0`. -/
theorem processScan_member_state (s : Store) (code now : String) (m : Member) (t : MemberType)
    (hm : lookupMember s code = some m)
    (ht : getOneMemberType s m.member_type_id = some t) :
    (processQrScan s code now).2 = some (scanDialog m t) ∧
    (processQrScan s code now).1.members =
      s.members.map (fun x => if x.id == m.id then memberUpdateData m t now else x) ∧
    (memberUpdateData m t now).total_scans = m.total_scans + 1 ∧
    (memberUpdateData m t now).points_to_reward = t.scans_required - (m.points + 1) ∧
    ((memberUpdateData m t now).reward_due = true ↔ t.scans_required ≤ m.points + 1) ∧
    (memberUpdateData m t now).points =
      (if t.scans_required ≤ m.points + 1 then 0 else m.points + 1) ∧
    (t.scans_required ≤ m.points + 1 →
      (memberUpdateData m t now).points = 0 ∧
      (memberUpdateData m t now).reward_due = true ∧
      (memberUpdateData m t now).points_to_reward ≤ 0) := by
  refine ⟨?_, ?_, ?_, ?_, ?_, ?_, ?_⟩
  · rw [processQrScan_ok hm ht]
  · rw [processQrScan_ok hm ht, scanOps_foldl]
  · simp [memberUpdateData]
  · simp [memberUpdateData]
  · simp only [memberUpdateData, decide_eq_true_eq]
    omega
  · simp only [memberUpdateData,
      show (t.scans_required - (m.points + 1) ≤ 0) ↔ (t.scans_required ≤ m.points + 1) from
        by omega]
  · intro h
    refine ⟨?_, ?_, ?_⟩ <;>
      simp only [memberUpdateData, decide_eq_true_eq] <;>
      omega

/-- Witness for C1 at the fixture store: the scan succeeds. -/
theorem processScan_member_state_witness :
    (processQrScan exStore "X" "t1").2 = some (scanDialog exMember exMemberType) :=
  (processScan_member_state exStore "X" "t1" exMember exMemberType rfl rfl).1

/-- C3: the stored `rewardEarnedAt` equals `now` exactly when the scan
makes the reward due and the member had no prior `rewardEarnedAt`; in
every other case it is the member's previous value. -/
theorem rewardEarnedAt_first_earn_only (m : Member) (t : MemberType) (now : String) :
    (memberUpdateData m t now).reward_earned_at =
      if (memberUpdateData m t now).reward_due = true ∧ m.reward_earned_at = none
      then some now else m.reward_earned_at := by
  by_cases hd : t.scans_required - (m.points + 1) ≤ 0 <;>
    by_cases he : m.reward_earned_at = none <;>
    simp [memberUpdateData, hd, he]

/-- C10: the member-update payload changes only the six scan fields —
`id`, `qr_code`, `name` and `member_type_id` are written back with
their previously-read values — and the member-type payload changes only
`total_scans`. -/
theorem processScan_frame (m : Member) (t : MemberType) (now : String) :
    (memberUpdateData m t now).id = m.id ∧
    (memberUpdateData m t now).qr_code = m.qr_code ∧
    (memberUpdateData m t now).name = m.name ∧
    (memberUpdateData m t now).member_type_id = m.member_type_id ∧
    (memberTypeUpdateData t).id = t.id ∧
    (memberTypeUpdateData t).name = t.name ∧
    (memberTypeUpdateData t).scans_required = t.scans_required ∧
    (memberTypeUpdateData t).reward_type_id = t.reward_type_id := by
  simp [memberUpdateData, memberTypeUpdateData]

/-- C4 counterexample: in a store where two members share the scanned
qr code the engine does not fail with an ambiguity error and does not
abort: the scan succeeds and the store is mutated. -/
theorem ambiguous_code_not_detected :
    exStoreDup.members.filter (fun m => m.qr_code == "X") = [exMember, exMemberDup] ∧
    (processQrScan exStoreDup "X" "t1").2 ≠ none ∧
    (processQrScan exStoreDup "X" "t1").1 ≠ exStoreDup := by
  decide

/-- C4 amended: with zero matching members the scan fails with
MemberNotFound and performs zero store writes; but with one or more
matching members (the getList request is capped at one record) the
lowest-id match is processed normally and the writes are performed —
multiple matches are not detected. -/
theorem processScan_zero_match_no_writes (s : Store) (code now : String) :
    (s.members.filter (fun m => m.qr_code == code) = [] →
      processQrScanPlan s code now = .error .memberNotFound ∧
      processQrScan s code now = (s, none)) ∧
    (∀ m t, lookupMember s code = some m →
      getOneMemberType s m.member_type_id = some t →
      (processQrScan s code now).2 = some (scanDialog m t)) := by
  constructor
  · intro h
    have hl : lookupMember s code = none := by simp [lookupMember, h, sortById]
    constructor
    · simp [processQrScanPlan, hl]
    · simp [processQrScan, processQrScanPlan, hl]
  · intro m t hm ht
    rw [processQrScan_ok hm ht]

/-- Witness for the amended C4: a code matching no member leaves the
fixture store untouched. -/
theorem processScan_zero_match_no_writes_witness :
    processQrScan exStore "Y" "t1" = (exStore, none) :=
  ((processScan_zero_match_no_writes exStore "Y" "t1").1 (by decide)).2

/-- C5: on a scan whose reads succeed, the writes are issued in the
fixed order member update, member-type update, scan-log append, then
redeem-log append — the scan log on every accepted scan, the redeem log
exactly when the just-computed rewardDue flag is true. -/
theorem scan_write_order (s : Store) (code now : String) (m : Member) (t : MemberType)
    (hm : lookupMember s code = some m)
    (ht : getOneMemberType s m.member_type_id = some t) :
    processQrScanPlan s code now = .ok (scanOps m t code now, scanDialog m t) ∧
    (scanOps m t code now).map WriteOp.kind =
      [.member, .memberType, .scanLog] ++
        (if (memberUpdateData m t now).reward_due = true then [.redeemLog] else []) := by
  refine ⟨processQrScanPlan_ok hm ht, ?_⟩
  by_cases h : t.scans_required - (m.points + 1) ≤ 0 <;>
    simp [scanOps, memberUpdateData, WriteOp.kind, h]

/-- Witness for C5 at the fixture store (a reward-crossing scan, so
the redeem log is the fourth write). -/
theorem scan_write_order_witness :
    (scanOps exMember exMemberType "X" "t1").map WriteOp.kind =
      [.member, .memberType, .scanLog] ++
        (if (memberUpdateData exMember exMemberType "t1").reward_due = true
         then [.redeemLog] else []) :=
  (scan_write_order exStore "X" "t1" exMember exMemberType rfl rfl).2

/-- C6 counterexample: a failure after zero successful writes and a
failure after one successful write return the same null result and the
same fixed catch message — the reported error does not name which
writes succeeded — even though the committed writes differ. -/
theorem partial_commit_not_named :
    (processQrScanFailingAt exStore "X" "t1" 0).2 =
      (processQrScanFailingAt exStore "X" "t1" 1).2 ∧
    (processQrScanFailingAt exStore "X" "t1" 0).2.2 = catchMessage ∧
    (processQrScanFailingAt exStore "X" "t1" 0).1 ≠
      (processQrScanFailingAt exStore "X" "t1" 1).1 := by
  decide

/-- C6 amended: if write `k` of the commit sequence fails, the `k`
already-committed writes stay committed (no rollback), none of the
remaining writes is issued and nothing is re-applied within the call,
and the caller sees only the fixed generic catch message, which is the
same whichever write failed. -/
theorem partial_failure_no_rollback (s : Store) (code now : String) (k : Nat)
    (ops : List WriteOp) (d : DialogContentData)
    (hplan : processQrScanPlan s code now = .ok (ops, d))
    (hk : k < ops.length) :
    processQrScanFailingAt s code now k =
      ((ops.take k).foldl applyOp s, none, catchMessage) := by
  simp [processQrScanFailingAt, hplan, hk]

/-- Witness for the amended C6: failure at the second write of the
fixture scan leaves exactly the first write committed. -/
theorem partial_failure_no_rollback_witness :
    processQrScanFailingAt exStore "X" "t1" 1 =
      (((scanOps exMember exMemberType "X" "t1").take 1).foldl applyOp exStore,
        none, catchMessage) :=
  partial_failure_no_rollback exStore "X" "t1" 1
    (scanOps exMember exMemberType "X" "t1") (scanDialog exMember exMemberType)
    rfl (by decide)

/-- C2 counterexample: `processQrScan` has no per-member lock. Under
the interleaving in which both calls read the member (who is one scan
short of the reward) before either writes, both calls run to
completion, TWO redeem logs are created, and the member's totalScans
grows by only 1 — not exactly one redeem log and +2 as claimed. -/
theorem concurrent_scans_not_serialized :
    exMember.points = exMemberType.scans_required - 1 ∧
    (runSchedule "X" "t1" "t2" exSchedule { store := exStore, a := .ready, b := .ready }).a
        = .finished ∧
    (runSchedule "X" "t1" "t2" exSchedule { store := exStore, a := .ready, b := .ready }).b
        = .finished ∧
    (runSchedule "X" "t1" "t2" exSchedule
        { store := exStore, a := .ready, b := .ready }).store.redeem_logs.length = 2 ∧
    (runSchedule "X" "t1" "t2" exSchedule
        { store := exStore, a := .ready, b := .ready }).store.members.map Member.total_scans
        = [exMember.total_scans + 1] := by
  decide

/-- C2 amended: `processQrScan` performs no per-member serialization,
so the claimed guarantee holds only when the two calls actually run
serially: when the second scan starts after the first completes,
starting from `points = scansRequired - 1` (with `scansRequired ≥ 2`),
the two calls together create exactly one redeem log, grow the
member's totalScans by exactly 2 and append two scan logs. -/
theorem serial_scans_single_redeem (m : Member) (t : MemberType)
    (ls : List ScanLog) (rs : List RedeemLog) (code now1 now2 : String)
    (hq : m.qr_code = code) (hmt : m.member_type_id = t.id)
    (hp : m.points = t.scans_required - 1) (hs : 2 ≤ t.scans_required) :
    (processQrScan (processQrScan
        { members := [m], member_types := [t], scan_logs := ls, redeem_logs := rs }
        code now1).1 code now2).1.redeem_logs.length = rs.length + 1 ∧
    (processQrScan (processQrScan
        { members := [m], member_types := [t], scan_logs := ls, redeem_logs := rs }
        code now1).1 code now2).1.members.map Member.total_scans = [m.total_scans + 2] ∧
    (processQrScan (processQrScan
        { members := [m], member_types := [t], scan_logs := ls, redeem_logs := rs }
        code now1).1 code now2).1.scan_logs.length = ls.length + 2 := by
  have h1m : lookupMember
      { members := [m], member_types := [t], scan_logs := ls, redeem_logs := rs } code
      = some m := by
    simp [lookupMember, sortById, insertById, hq]
  have h1t : getOneMemberType
      { members := [m], member_types := [t], scan_logs := ls, redeem_logs := rs }
      m.member_type_id = some t := by
    simp [getOneMemberType, hmt]
  rw [processQrScan_ok h1m h1t, scanOps_foldl]
  simp only [beq_self_eq_true, if_true, List.map_cons, List.map_nil]
  rw [if_pos (show t.scans_required - (m.points + 1) ≤ 0 by omega)]
  have h2m : lookupMember
      { members := [memberUpdateData m t now1], member_types := [memberTypeUpdateData t],
        scan_logs := ls ++ [{ scanned_value := code }],
        redeem_logs := rs ++ [{ member_id := m.id, reward_type_id := t.reward_type_id }] }
      code = some (memberUpdateData m t now1) := by
    simp [lookupMember, sortById, insertById, memberUpdateData, hq]
  have h2t : getOneMemberType
      { members := [memberUpdateData m t now1], member_types := [memberTypeUpdateData t],
        scan_logs := ls ++ [{ scanned_value := code }],
        redeem_logs := rs ++ [{ member_id := m.id, reward_type_id := t.reward_type_id }] }
      (memberUpdateData m t now1).member_type_id = some (memberTypeUpdateData t) := by
    simp [getOneMemberType, memberUpdateData, memberTypeUpdateData, hmt]
  rw [processQrScan_ok h2m h2t, scanOps_foldl]
  refine ⟨?_, ?_, ?_⟩
  · simp only [List.length_append]
    rw [if_neg (show ¬((memberTypeUpdateData t).scans_required -
          ((memberUpdateData m t now1).points + 1) ≤ 0) by
        simp only [memberTypeUpdateData, memberUpdateData]
        omega)]
    simp
  · simp only [memberUpdateData, memberTypeUpdateData, beq_self_eq_true, if_true,
      List.map_cons, List.map_nil]
    simp
    omega
  · simp [List.length_append]

/-- Witness for the amended C2: two serial scans at the fixture store
yield one redeem log and totalScans 12. -/
theorem serial_scans_single_redeem_witness :
    (processQrScan (processQrScan
        { members := [exMember], member_types := [exMemberType],
          scan_logs := [], redeem_logs := [] }
        "X" "t1").1 "X" "t2").1.redeem_logs.length = 0 + 1 :=
  (serial_scans_single_redeem exMember exMemberType [] [] "X" "t1" "t2"
    rfl rfl (by decide) (by decide)).1

end RewardsApp

namespace AirtableSync

/-- A batch candidate is kept by the duplicate filter iff neither its
external id nor its lower-cased email occurs among the existing
records' keys. -/
theorem mem_newMembers_iff (existing : List PendingMember)
    (records : List AirtableRecord) (r : AirtableRecord) (hr : r ∈ records) :
    toPendingMember r ∈ newMembers existing records ↔
      r.id ∉ existing.map (fun p => p.airtable_id) ∧
      toLowerCase r.email ∉ existing.map (fun p => toLowerCase p.email) := by
  unfold newMembers
  rw [List.mem_filter]
  constructor
  · rintro ⟨-, h⟩
    simpa [toPendingMember] using h
  · intro h
    exact ⟨List.mem_map_of_mem _ hr, by simpa [toPendingMember] using h⟩

/-- C7: an external candidate is created as a new pending member iff
neither its external id is among the existing pending members'
external ids nor its lower-cased email is among their lower-cased
emails. -/
theorem candidate_created_iff_new (existing : List PendingMember)
    (records : List AirtableRecord) (r : AirtableRecord) (hr : r ∈ records) :
    toPendingMember r ∈ newMembers existing records ↔
      r.id ∉ existing.map (fun p => p.airtable_id) ∧
      toLowerCase r.email ∉ existing.map (fun p => toLowerCase p.email) :=
  mem_newMembers_iff existing records r hr

/-- Witness for C7: a candidate with email "A@x.com" is skipped when an
existing pending member has email "a@x.com". -/
theorem candidate_created_iff_new_witness :
    toPendingMember exCandidateUpper ∉ newMembers [exExisting] [exCandidateUpper] := by
  intro hmem
  have h := (candidate_created_iff_new [exExisting] [exCandidateUpper] exCandidateUpper
    (by decide)).mp hmem
  exact h.2 (by decide)

/-- Two strings of the same repeated character differ when their
lengths differ. -/
theorem replicate_string_ne {c : Char} {m n : Nat} (h : m ≠ n) :
    String.mk (List.replicate m c) ≠ String.mk (List.replicate n c) := by
  intro he
  apply h
  have hlen := congrArg (fun s => s.data.length) he
  simpa using hlen

/-- Lower-casing a string of 'e's is the identity. -/
theorem toLowerCase_replicate_e (n : Nat) :
    toLowerCase (String.mk (List.replicate n 'e')) = String.mk (List.replicate n 'e') := by
  simp [toLowerCase, List.map_replicate, show Char.toLower 'e' = 'e' from rfl]

/-- `bigCand`'s external id occurs nowhere in `bigStore`. -/
theorem bigCand_id_fresh : bigCand.id ∉ bigStore.map (fun p => p.airtable_id) := by
  intro h
  simp only [bigStore, List.map_map, List.mem_map, List.mem_range] at h
  obtain ⟨i, hi, he⟩ := h
  simp only [Function.comp, fillerPending, bigCand] at he
  exact replicate_string_ne (show i + 1 ≠ 1001 by omega) he

/-- `bigCand`'s lower-cased email occurs nowhere in `bigStore`. -/
theorem bigCand_email_fresh :
    toLowerCase bigCand.email ∉ bigStore.map (fun p => toLowerCase p.email) := by
  intro h
  simp only [bigStore, List.map_map, List.mem_map, List.mem_range] at h
  obtain ⟨i, hi, he⟩ := h
  simp only [Function.comp, fillerPending, bigCand, toLowerCase_replicate_e] at he
  exact replicate_string_ne (show i + 1 ≠ 1001 by omega) he

/-- Dedup against a page that contains every record the first run
created (plus the same existing records) filters every candidate out. -/
theorem newMembers_append_created (existing : List PendingMember)
    (records : List AirtableRecord) (created : List PendingMember)
    (hsub : ∀ r ∈ records, toPendingMember r ∈ newMembers existing records →
      toPendingMember r ∈ created) :
    newMembers (existing ++ created) records = [] := by
  simp only [newMembers]
  rw [List.filter_eq_nil_iff]
  intro a ha
  rw [List.mem_map] at ha
  obtain ⟨r, hr, rfl⟩ := ha
  by_cases hc : toPendingMember r ∈ newMembers existing records
  · have hcr := hsub r hr hc
    intro hpred
    rw [Bool.and_eq_true] at hpred
    obtain ⟨h1, -⟩ := hpred
    rw [Bool.not_eq_true'] at h1
    simp only [toPendingMember] at h1
    simp at h1
    exact absurd rfl (h1.2 (toPendingMember r) hcr)
  · rw [mem_newMembers_iff existing records r hr] at hc
    by_cases hid : r.id ∈ existing.map (fun p => p.airtable_id)
    · intro hpred
      rw [Bool.and_eq_true] at hpred
      obtain ⟨h1, -⟩ := hpred
      rw [Bool.not_eq_true'] at h1
      simp only [toPendingMember] at h1
      simp at h1
      obtain ⟨p, hp, he⟩ := List.mem_map.mp hid
      exact absurd he (h1.1 p hp)
    · by_cases hem : toLowerCase r.email ∈ existing.map (fun p => toLowerCase p.email)
      · intro hpred
        rw [Bool.and_eq_true] at hpred
        obtain ⟨-, h2⟩ := hpred
        rw [Bool.not_eq_true'] at h2
        simp only [toPendingMember] at h2
        simp at h2
        obtain ⟨p, hp, he⟩ := List.mem_map.mp hem
        exact absurd he (h2.1 p hp)
      · exact absurd ⟨hid, hem⟩ hc

/-- C8 counterexample: the existing-members fetch is a single page of
at most 1000 records, so the sync is NOT idempotent once the store
spills past one page. Starting from a store of exactly 1000 pending
members, the first run creates the fresh candidate (the store is now
1001 records), and the second run's fetch — the first 1000 records —
omits that creation, so the same candidate is created AGAIN rather
than skipped. -/
theorem sync_not_idempotent_beyond_page :
    bigStore.length = 1000 ∧
    toPendingMember bigCand ∈ newMembers (fetchExisting bigStore) [bigCand] ∧
    toPendingMember bigCand ∈
      newMembers (fetchExisting (runSync bigStore [bigCand])) [bigCand] := by
  have h1000 : bigStore.length = 1000 := by simp [bigStore]
  have hfe1 : fetchExisting bigStore = bigStore :=
    List.take_of_length_le (le_of_eq h1000)
  have hmem1 : toPendingMember bigCand ∈ newMembers bigStore [bigCand] :=
    (mem_newMembers_iff bigStore [bigCand] bigCand (by simp)).mpr
      ⟨bigCand_id_fresh, bigCand_email_fresh⟩
  have hfe2 : fetchExisting (runSync bigStore [bigCand]) = bigStore := by
    show (bigStore ++ newMembers (fetchExisting bigStore) [bigCand]).take 1000 = bigStore
    rw [← h1000, List.take_left]
  refine ⟨h1000, ?_, ?_⟩
  · rw [hfe1]
    exact hmem1
  · rw [hfe2]
    exact hmem1

/-- C8 amended: the sync is idempotent over an unchanged external
source provided the grown store still fits within the single fetched
page (at most 1000 records): then the second run's fetch sees every
record the first run created and creates zero new pending members.
Beyond 1000 records the fetch omits the first run's creations and
idempotency fails. -/
theorem sync_idempotent_within_page (existing : List PendingMember)
    (records : List AirtableRecord)
    (hfit : (runSync existing records).length ≤ 1000) :
    newMembers (fetchExisting (runSync existing records)) records = [] := by
  have hlen : (runSync existing records).length =
      existing.length + (newMembers (fetchExisting existing) records).length := by
    simp [runSync]
  have hex : existing.length ≤ 1000 := by omega
  have hfe : fetchExisting existing = existing := List.take_of_length_le hex
  rw [show fetchExisting (runSync existing records) = runSync existing records from
    List.take_of_length_le hfit]
  show newMembers (existing ++ newMembers (fetchExisting existing) records) records = []
  rw [hfe]
  exact newMembers_append_created existing records _ (fun r a h => h)

/-- Witness for the amended C8: a one-record store plus one candidate
fits one page, and the second run creates nothing. -/
theorem sync_idempotent_within_page_witness :
    newMembers (fetchExisting (runSync [exExisting] [exCandidateUpper]))
      [exCandidateUpper] = [] :=
  sync_idempotent_within_page [exExisting] [exCandidateUpper] (by decide)

/-- C9 counterexample: the duplicate filter checks candidates against
EXISTING records only, so two candidates of the same batch sharing a
case-insensitive email are both created, and the uniqueness invariant
is broken by a run that starts from an invariant-satisfying (empty)
store. -/
theorem intra_batch_duplicates_break_uniqueness :
    pendingInvariant ([] : List PendingMember) ∧
    runSync [] [exCandidateUpper, exCandidateSameEmail]
      = [toPendingMember exCandidateUpper, toPendingMember exCandidateSameEmail] ∧
    ¬ pendingInvariant (runSync [] [exCandidateUpper, exCandidateSameEmail]) := by
  refine ⟨?_, ?_, ?_⟩ <;> decide

/-- C9 amended: a run preserves the uniqueness invariant provided the
existing store fits within the single fetched page (at most 1000
records, so the duplicate filter sees all of it) and the candidate
batch itself contains no two records with the same external id or the
same lower-cased email; duplicates inside one batch, or against
records beyond the fetched page, are not deduplicated and break the
invariant. -/
theorem sync_preserves_uniqueness (existing : List PendingMember)
    (records : List AirtableRecord)
    (hfit : existing.length ≤ 1000)
    (hinv : pendingInvariant existing)
    (hids : records.Pairwise (fun a b => a.id ≠ b.id))
    (hemails : records.Pairwise (fun a b => toLowerCase a.email ≠ toLowerCase b.email)) :
    pendingInvariant (runSync existing records) := by
  have hfe : fetchExisting existing = existing := List.take_of_length_le hfit
  unfold pendingInvariant runSync
  rw [hfe]
  rw [List.pairwise_append]
  refine ⟨hinv, ?_, ?_⟩
  · have hmap : (records.map toPendingMember).Pairwise
        (fun a b => a.airtable_id ≠ b.airtable_id ∧
          toLowerCase a.email ≠ toLowerCase b.email) := by
      rw [List.pairwise_map]
      exact hids.and hemails
    simp only [newMembers]
    exact hmap.filter _
  · intro a ha b hb
    simp only [newMembers] at hb
    rw [List.mem_filter] at hb
    obtain ⟨-, hpred⟩ := hb
    simp at hpred
    exact ⟨hpred.1 a ha, hpred.2 a ha⟩

/-- Witness for the amended C9: a duplicate-free batch against a
singleton (page-fitting) store keeps the invariant. -/
theorem sync_preserves_uniqueness_witness :
    pendingInvariant (runSync [exExisting] [exCandidateUpper]) :=
  sync_preserves_uniqueness [exExisting] [exCandidateUpper]
    (by decide) (by simp [pendingInvariant]) (by simp) (by simp)

end AirtableSync
